import Mathlib

/-!
Verification of the keyword-trend dashboard (src/Keyword_Qty_app.py).

The program queries a search-trend endpoint and a news endpoint, reduces each
keyword's time series to summary statistics (mean / max / last of the relative
interest values), ranks keywords by the mean, and renders per-keyword news
snippets.  The development below embeds the request pipeline, the aggregation,
the pandas-style ranking sort, the per-keyword news loop and the snippet
cleanup as executable Lean definitions, and proves or refutes the specified
properties about them.

Conventions: Python floats are modelled as rationals (the values involved are
exact decimals and the claims are about exact arithmetic); a Python exception
that the program raises on purpose or by accident is an explicit error value.
-/

/-- One entry of the trend response: `{title, data: [{period, ratio}]}`
(spec: TrendResult entry).  Each data point is a pair of period label and
relative interest value (a nonnegative float, modelled as a rational). -/
structure TrendEntry where
  title : String
  data : List (String × ℚ)
deriving DecidableEq

/-- One row of the ranking table built at line 127 of the source:
`{"키워드": title, "평균지수": avg_ratio, "최대지수": max_ratio, "최근지수": last_ratio}`.
Field `avgVal` is the Python local `avg_ratio` (column 평균지수), `maxVal` is
`max_ratio` (최대지수), `lastVal` is `last_ratio` (최근지수). -/
structure RankRow where
  keyword : String
  avgVal : ℚ
  maxVal : ℚ
  lastVal : ℚ
deriving DecidableEq

/-- A news item of the news response: `{title, link, description}`. -/
structure NewsItem where
  title : String
  link : String
  description : String
deriving DecidableEq

/-- The Python exceptions the aggregation code can raise by accident.
`keyError` models the `KeyError` that `series["ratio"]` raises when the
DataFrame built from an empty `data` list has no `ratio` column. -/
inductive PyError where
  | keyError
deriving DecidableEq

/-- The classified failures of the two HTTP helpers.  `auth` is the
`RuntimeError("인증 오류(401/403)...")` branch raised for status 401/403
(the spec calls it AuthError); `http status` is the `requests.HTTPError`
raised by `r.raise_for_status()` for any other 4xx/5xx status (the spec
calls it RequestError). -/
inductive ApiError where
  | auth
  | http (status : Nat)
deriving DecidableEq

/-- Models lines 124-127 of the source, the body of the loop that turns one
trend entry into a ranking row:
`series = pd.DataFrame(res["data"]); avg_ratio = series["ratio"].mean();
max_ratio = series["ratio"].max(); last_ratio = series["ratio"].iloc[-1]`.
`pd.Series.mean` is the sum divided by the count, `.max` the running maximum,
`.iloc[-1]` the final element.  When `data` is empty, `pd.DataFrame([])` has
no columns at all, so `series["ratio"]` raises `KeyError` — hence the error
case. -/
def buildRow (e : TrendEntry) : Except PyError RankRow :=
  match e.data with
  | [] => .error .keyError
  | p :: ps =>
    let rs := (p :: ps).map Prod.snd
    .ok { keyword := e.title
          avgVal := rs.sum / (rs.length : ℚ)
          maxVal := ps.foldl (fun m q => max m q.2) p.2
          lastVal := ((p :: ps).getLast (List.cons_ne_nil p ps)).2 }

/-- Models the loop at lines 120-127: one ranking row per trend entry, in
response order; the first entry with empty `data` aborts the loop with the
uncaught `KeyError`. -/
def buildRows : List TrendEntry → Except PyError (List RankRow)
  | [] => .ok []
  | e :: es =>
    match buildRow e with
    | .error err => .error err
    | .ok r =>
      match buildRows es with
      | .error err => .error err
      | .ok rs => .ok (r :: rs)

/-- The comparison the ranking sorts by: the mean interest value (column
평균지수, Python `avg_ratio`). -/
def leRow (a b : RankRow) : Bool :=
  decide (a.avgVal ≤ b.avgVal)

/-- Models line 133: `pd.DataFrame(rows).sort_values("평균지수", ascending=False)`.
pandas realises a descending `sort_values` in `nargsort` by reversing the
column values (and their indices) first, computing an ascending argsort of
the reversed array, and reversing the resulting indexer afterward; the
underlying argsort is stable for the small inputs this program produces
(at most 5 rows, where numpy's quicksort is an insertion sort).  The net
effect of the two reversals around a stable ascending sort is a stable
descending sort: equal keys keep their input order.  Modelled literally:
reverse the rows, sort them stably ascending, reverse the result. -/
def rank_df (rows : List RankRow) : List RankRow :=
  (rows.reverse.mergeSort leRow).reverse

/-- Models line 55: `groups = [{"groupName": kw, "keywords": [kw]} for kw in keywords][:5]`.
Each keyword becomes its own group and only the first five groups are kept
(the DataLab API accepts at most 5 groups). -/
def trendGroups (keywords : List String) : List (String × List String) :=
  (keywords.map (fun kw => (kw, [kw]))).take 5

/-- Models the status handling of `fetch_trend` (lines 66-70): status 401 or
403 raises the dedicated auth error, any other 4xx/5xx status makes
`r.raise_for_status()` raise `HTTPError`, and any remaining status returns
the parsed body. -/
def fetch_trend_status (status : Nat) (body : List TrendEntry) :
    Except ApiError (List TrendEntry) :=
  if status = 401 ∨ status = 403 then .error .auth
  else if 400 ≤ status ∧ status < 600 then .error (.http status)
  else .ok body

/-- Models the status handling of `fetch_news_snippets` (lines 75-79): the
same 401/403 and `raise_for_status` dispatch, then `r.json().get("items", [])`
defaults a missing `items` field to the empty list. -/
def fetch_news_status (status : Nat) (body : Option (List NewsItem)) :
    Except ApiError (List NewsItem) :=
  if status = 401 ∨ status = 403 then .error .auth
  else if 400 ≤ status ∧ status < 600 then .error (.http status)
  else .ok (body.getD [])

/-- Fuel-based scan that deletes every non-overlapping occurrence of `pat`
from a character list, left to right — the behaviour of Python's
`str.replace(pat, "")` for a nonempty `pat`.  The fuel argument only bounds
the recursion; it is always called with the length of the list, which
suffices because each step consumes at least one character. -/
def removeOccF (pat : List Char) : Nat → List Char → List Char
  | _, [] => []
  | 0, l => l
  | fuel + 1, c :: rest =>
    if pat.isPrefixOf (c :: rest) then
      removeOccF pat fuel (rest.drop (pat.length - 1))
    else
      c :: removeOccF pat fuel rest

/-- `True` when `pat` occurs as a contiguous run inside the list. -/
def occursIn (pat : List Char) : List Char → Bool
  | [] => pat.isEmpty
  | c :: rest => pat.isPrefixOf (c :: rest) || occursIn pat rest

/-- Python's `s.replace(pat, "")` on strings, for a nonempty pattern. -/
def removeAllStr (pat : String) (s : String) : String :=
  ⟨removeOccF pat.data s.data.length s.data⟩

/-- Models lines 153 and 155 of the source:
`item.get(...).replace("<b>", "").replace("</b>", "")` — first every `<b>`
is deleted, then every `</b>` is deleted from the result. -/
def sanitize (s : String) : String :=
  removeAllStr "</b>" (removeAllStr "<b>" s)

/-- Follows the spec's words, for comparison with `sanitize`: a single
left-to-right pass that removes exactly the occurrences of the two emphasis
tags present in the input and leaves every other character unchanged. -/
def onePassStrip : Nat → List Char → List Char
  | _, [] => []
  | 0, l => l
  | fuel + 1, c :: rest =>
    if ("<b>".data).isPrefixOf (c :: rest) then onePassStrip fuel (rest.drop 2)
    else if ("</b>".data).isPrefixOf (c :: rest) then onePassStrip fuel (rest.drop 3)
    else c :: onePassStrip fuel rest

/-- The spec-side sanitizer: remove exactly the emphasis tags of the input. -/
def sanitizeSpec (s : String) : String :=
  ⟨onePassStrip s.data.length s.data⟩

/-- Models lines 151-156: before display, the title and the description of a
news item pass through the tag cleanup, the link is used as-is. -/
def renderItem (item : NewsItem) : String × String × String :=
  (sanitize item.title, item.link, sanitize item.description)

/-- Models the body of the per-keyword loop (lines 143-150): a successful
news fetch renders the items with no warning; a failed fetch renders a
warning (`st.warning(f"뉴스 API 호출 실패({kw}): ...")`) and continues with
an empty news list.  The result is (keyword, warning shown?, items). -/
def newsSectionOf (api : String → Except ApiError (List NewsItem)) (kw : String) :
    String × Bool × List NewsItem :=
  match api kw with
  | .ok ns => (kw, false, ns)
  | .error _ => (kw, true, [])

/-- Models the whole news loop at lines 141-148: one fetch per ranked
keyword, in ranking order; the first component records the news calls
actually issued, the second the rendered sections. -/
def newsLoop (api : String → Except ApiError (List NewsItem)) :
    List String → List String × List (String × Bool × List NewsItem)
  | [] => ([], [])
  | kw :: rest =>
    let p := newsLoop api rest
    (kw :: p.1, newsSectionOf api kw :: p.2)

/-- Python `text.split(",")` over characters: splits at every comma,
keeping empty pieces. -/
def splitCommaAux : List Char → List Char → List (List Char)
  | [], acc => [acc.reverse]
  | c :: rest, acc =>
    if c = ',' then acc.reverse :: splitCommaAux rest []
    else splitCommaAux rest (c :: acc)

/-- The whitespace characters `str.strip()` removes (restricted to the ones
that can appear in the text area input). -/
def isSpaceChar (c : Char) : Bool :=
  c = ' ' ∨ c = '\t' ∨ c = '\n' ∨ c = '\r'

/-- Python `token.strip()`: drop leading and trailing whitespace. -/
def stripChars (l : List Char) : List Char :=
  ((l.dropWhile isSpaceChar).reverse.dropWhile isSpaceChar).reverse

/-- Models line 107:
`keywords = [k.strip() for k in keywords_text.split(",") if k.strip()]` —
split the text area content on commas, strip each token, and keep only the
tokens that are nonempty after stripping. -/
def parseKeywords (text : String) : List String :=
  ((splitCommaAux text.data []).map (fun t => String.mk (stripChars t))).filter
    (fun k => k ≠ "")

/-- A network request issued by the query: the trend POST with its keyword
groups, or a news GET with its query string. -/
inductive NetCall where
  | trend (groups : List (String × List String))
  | news (query : String)
deriving DecidableEq

/-- The observable outcome of one button press (lines 99-156):
`credsRefused` is the `st.error`+`st.stop` of lines 100-101, `noKeywords`
the `st.warning`+`st.stop` of lines 109-110, `trendFailed` the
`st.error`+`st.stop` of lines 116-117, `crashed` an uncaught Python
exception escaping the script, `noData` the `st.info`+`st.stop` of lines
130-131, and `rendered` the ranking table plus per-keyword news sections. -/
inductive Outcome where
  | credsRefused
  | noKeywords
  | trendFailed (e : ApiError)
  | crashed (e : PyError)
  | noData
  | rendered (ranking : List RankRow)
      (sections : List (String × Bool × List NewsItem))
deriving DecidableEq

/-- Models the main action of the script, lines 99-148, for one button
press.  `trendApi` stands for the trend HTTP exchange of `fetch_trend`
(returning the classified error the helper raises, cf.
`fetch_trend_status`), `newsApi` likewise for `fetch_news_snippets`.
Returns the outcome together with the network calls issued, so that
"refused before any network call" is the empty call list. -/
def runQuery (cid csec : String) (keywordsText : String)
    (trendApi : List (String × List String) → Except ApiError (List TrendEntry))
    (newsApi : String → Except ApiError (List NewsItem)) :
    Outcome × List NetCall :=
  if cid = "" ∨ csec = "" then (.credsRefused, [])
  else
    let kws := parseKeywords keywordsText
    if kws = [] then (.noKeywords, [])
    else
      let groups := trendGroups kws
      match trendApi groups with
      | .error e => (.trendFailed e, [.trend groups])
      | .ok entries =>
        match buildRows entries with
        | .error e => (.crashed e, [.trend groups])
        | .ok rows =>
          if rows = [] then (.noData, [.trend groups])
          else
            let ranking := rank_df rows
            let res := newsLoop newsApi (ranking.map RankRow.keyword)
            (.rendered ranking res.2, .trend groups :: res.1.map NetCall.news)

theorem foldl_max_le_init (l : List ℚ) (a : ℚ) : a ≤ l.foldl max a := by
  induction l generalizing a with
  | nil => exact le_refl a
  | cons b l ih => exact le_trans (le_max_left a b) (ih (max a b))

theorem foldl_max_le_of_mem (l : List ℚ) (a : ℚ) :
    ∀ x ∈ l, x ≤ l.foldl max a := by
  induction l generalizing a with
  | nil => intro x hx; cases hx
  | cons b l ih =>
    intro x hx
    rcases List.mem_cons.mp hx with hxb | hxl
    · subst hxb
      exact le_trans (le_max_right a x) (foldl_max_le_init l (max a x))
    · exact ih (max a b) x hxl

theorem foldl_max_mem (l : List ℚ) (a : ℚ) :
    l.foldl max a = a ∨ l.foldl max a ∈ l := by
  induction l generalizing a with
  | nil => exact Or.inl rfl
  | cons b l ih =>
    rcases ih (max a b) with h | h
    · rcases max_choice a b with hm | hm
      · left
        rw [List.foldl_cons, h, hm]
      · right
        rw [List.foldl_cons, h, hm]
        exact List.mem_cons_self b l
    · exact Or.inr (List.mem_cons_of_mem b h)

theorem getLast_eq_getLastD (p : String × ℚ) (ps : List (String × ℚ)) :
    (p :: ps).getLast (List.cons_ne_nil p ps) = (p :: ps).getLastD ("", 0) := by
  induction ps generalizing p with
  | nil => rfl
  | cons q qs ih =>
    rw [List.getLastD_cons]
    exact ih q

/-- C5: the trend request sends at most 5 keyword groups; only the first 5
keywords are kept, the excess are dropped — with the 7-keyword instance. -/
theorem trendGroups_at_most_five (kws : List String) :
    (trendGroups kws).length ≤ 5 ∧
    trendGroups kws = (kws.take 5).map (fun kw => (kw, [kw])) ∧
    trendGroups ["k1", "k2", "k3", "k4", "k5", "k6", "k7"] =
      [("k1", ["k1"]), ("k2", ["k2"]), ("k3", ["k3"]), ("k4", ["k4"]),
        ("k5", ["k5"])] := by
  refine ⟨?_, ?_, by decide⟩
  · rw [trendGroups, List.length_take]
    exact min_le_left 5 _
  · rw [trendGroups, List.map_take]

/-- C2: for an error status, both HTTP helpers fail with the classified
error the spec demands: 401/403 give the auth failure (AuthError), every
other 4xx/5xx status gives the request failure (RequestError); no other,
unclassified error is possible. -/
theorem fetch_status_taxonomy (status : Nat) (body : List TrendEntry)
    (nbody : Option (List NewsItem)) (h : 400 ≤ status ∧ status < 600) :
    (status = 401 ∨ status = 403 →
      fetch_trend_status status body = .error .auth ∧
      fetch_news_status status nbody = .error .auth) ∧
    (status ≠ 401 → status ≠ 403 →
      fetch_trend_status status body = .error (.http status) ∧
      fetch_news_status status nbody = .error (.http status)) := by
  constructor
  · intro hs
    simp [fetch_trend_status, fetch_news_status, hs]
  · intro h1 h2
    simp [fetch_trend_status, fetch_news_status, h1, h2, h.1, h.2]

theorem fetch_status_taxonomy_witness :
    fetch_trend_status 401 [] = .error .auth ∧
    fetch_news_status 500 none = .error (.http 500) := by
  refine ⟨((fetch_status_taxonomy 401 [] none (by decide)).1 (Or.inl rfl)).1, ?_⟩
  exact ((fetch_status_taxonomy 500 [] none (by decide)).2 (by decide) (by decide)).2

/-- C3: for a trend entry with nonempty data points, the derived row carries
the arithmetic mean of the interest values (stated product-free of division:
mean times count equals sum), their maximum (a member that bounds them all),
and the value of the final period. -/
theorem buildRow_summary (e : TrendEntry) (h : e.data ≠ []) :
    ∃ r, buildRow e = .ok r ∧ r.keyword = e.title ∧
      r.avgVal * ((e.data.length : ℚ)) = (e.data.map Prod.snd).sum ∧
      r.maxVal ∈ e.data.map Prod.snd ∧
      (∀ q ∈ e.data.map Prod.snd, q ≤ r.maxVal) ∧
      r.lastVal = (e.data.getLastD ("", 0)).2 := by
  match hd : e.data with
  | [] => exact absurd hd h
  | p :: ps =>
    refine ⟨_, by rw [buildRow, hd], rfl, ?_, ?_, ?_, ?_⟩
    · show ((p :: ps).map Prod.snd).sum / ((((p :: ps).map Prod.snd).length : ℕ) : ℚ) *
        (((p :: ps).length : ℕ) : ℚ) = ((p :: ps).map Prod.snd).sum
      rw [List.length_map]
      refine div_mul_cancel₀ _ ?_
      simp only [List.length_cons]
      exact Nat.cast_ne_zero.mpr (Nat.succ_ne_zero ps.length)
    · show ps.foldl (fun m q => max m q.2) p.2 ∈ (p :: ps).map Prod.snd
      rw [← List.foldl_map Prod.snd max ps p.2]
      rcases foldl_max_mem (ps.map Prod.snd) p.2 with hm | hm
      · rw [hm, List.map_cons]
        exact List.mem_cons_self _ _
      · rw [List.map_cons]
        exact List.mem_cons_of_mem _ hm
    · show ∀ q ∈ (p :: ps).map Prod.snd, q ≤ ps.foldl (fun m q => max m q.2) p.2
      rw [← List.foldl_map Prod.snd max ps p.2]
      intro q hq
      rw [List.map_cons] at hq
      rcases List.mem_cons.mp hq with hq | hq
      · subst hq
        exact foldl_max_le_init (ps.map Prod.snd) p.2
      · exact foldl_max_le_of_mem (ps.map Prod.snd) p.2 q hq
    · show ((p :: ps).getLast (List.cons_ne_nil p ps)).2 = ((p :: ps).getLastD ("", 0)).2
      rw [getLast_eq_getLastD]

theorem buildRow_summary_witness :
    (∃ r, buildRow ⟨"k", [("p1", 10), ("p2", 20), ("p3", 30)]⟩ = .ok r ∧
      r.keyword = "k" ∧
      r.avgVal *
        (((TrendEntry.mk "k" [("p1", 10), ("p2", 20), ("p3", 30)]).data.length : ℚ)) =
        ((TrendEntry.mk "k" [("p1", 10), ("p2", 20), ("p3", 30)]).data.map Prod.snd).sum ∧
      r.maxVal ∈ (TrendEntry.mk "k" [("p1", 10), ("p2", 20), ("p3", 30)]).data.map Prod.snd ∧
      (∀ q ∈ (TrendEntry.mk "k" [("p1", 10), ("p2", 20), ("p3", 30)]).data.map Prod.snd,
        q ≤ r.maxVal) ∧
      r.lastVal =
        ((TrendEntry.mk "k" [("p1", 10), ("p2", 20), ("p3", 30)]).data.getLastD ("", 0)).2) ∧
    buildRow ⟨"k", [("p1", 10), ("p2", 20), ("p3", 30)]⟩ = .ok ⟨"k", 20, 30, 30⟩ := by
  constructor
  · exact buildRow_summary ⟨"k", [("p1", 10), ("p2", 20), ("p3", 30)]⟩ (by decide)
  · show Except.ok
      (RankRow.mk "k" (([(10 : ℚ), 20, 30]).sum / ((([(10 : ℚ), 20, 30]).length : ℕ) : ℚ))
        ([(("p2", (20 : ℚ))), ("p3", 30)].foldl (fun m q => max m q.2) 10)
        30) = Except.ok (RankRow.mk "k" 20 30 30)
    norm_num

theorem buildRows_ok (entries : List TrendEntry)
    (h : ∀ e ∈ entries, e.data ≠ []) :
    ∃ rows, buildRows entries = .ok rows ∧ rows.length = entries.length := by
  induction entries with
  | nil => exact ⟨[], rfl, rfl⟩
  | cons e es ih =>
    obtain ⟨rows, hrows, hlen⟩ := ih (fun x hx => h x (List.mem_cons_of_mem e hx))
    have he : e.data ≠ [] := h e (List.mem_cons_self e es)
    obtain ⟨r, hr⟩ : ∃ r, buildRow e = .ok r := by
      match hd : e.data with
      | [] => exact absurd hd he
      | p :: ps =>
        rw [buildRow, hd]
        exact ⟨_, rfl⟩
    refine ⟨r :: rows, ?_, by simp [hlen]⟩
    simp only [buildRows, hr, hrows]

theorem leRow_trans (a b c : RankRow) :
    leRow a b → leRow b c → leRow a c := by
  simp only [leRow, decide_eq_true_eq]
  exact le_trans

theorem leRow_total (a b : RankRow) : leRow a b || leRow b a := by
  simp only [leRow, Bool.or_eq_true, decide_eq_true_eq]
  exact le_total a.avgVal b.avgVal

/-- C1: when every entry has nonempty data points, row building succeeds,
the ranking has exactly one row per input entry, and adjacent rows of the
ranking are in descending order of the mean interest value. -/
theorem rank_length_and_sorted (entries : List TrendEntry)
    (h : ∀ e ∈ entries, e.data ≠ []) :
    ∃ rows, buildRows entries = .ok rows ∧
      (rank_df rows).length = entries.length ∧
      ∀ i (hi : i + 1 < (rank_df rows).length),
        ((rank_df rows).get ⟨i + 1, hi⟩).avgVal ≤
          ((rank_df rows).get ⟨i, Nat.lt_of_succ_lt hi⟩).avgVal := by
  obtain ⟨rows, hrows, hlen⟩ := buildRows_ok entries h
  refine ⟨rows, hrows, ?_, ?_⟩
  · rw [rank_df, List.length_reverse, List.length_mergeSort, List.length_reverse]
    exact hlen
  · have hp : (rows.reverse.mergeSort leRow).Pairwise (fun a b => leRow a b) :=
      List.sorted_mergeSort leRow_trans leRow_total rows.reverse
    have hrev : (rank_df rows).Pairwise (fun a b => leRow b a) := by
      rw [rank_df]
      exact List.pairwise_reverse.mpr hp
    intro i hi
    have hij := List.pairwise_iff_get.mp hrev
      ⟨i, Nat.lt_of_succ_lt hi⟩ ⟨i + 1, hi⟩ (Nat.lt_succ_self i)
    simpa only [leRow, decide_eq_true_eq] using hij

theorem rank_length_and_sorted_witness :
    ∃ rows, buildRows [⟨"A", [("p", 10)]⟩] = .ok rows ∧
      (rank_df rows).length = ([(⟨"A", [("p", 10)]⟩ : TrendEntry)]).length ∧
      ∀ i (hi : i + 1 < (rank_df rows).length),
        ((rank_df rows).get ⟨i + 1, hi⟩).avgVal ≤
          ((rank_df rows).get ⟨i, Nat.lt_of_succ_lt hi⟩).avgVal :=
  rank_length_and_sorted [⟨"A", [("p", 10)]⟩] (by decide)

/-- C4: the ranking is a stable descending sort: whenever `x` appears
before `y` in the row list (as a two-element sublist) and both have the
same mean interest value, the ranking keeps `x` before `y`.  The two
reversals that `nargsort` wraps around its stable ascending argsort cancel
on ties: in the reversed input `y` precedes `x`, the stable ascending sort
keeps that order for equal keys, and the final reversal restores `x`
before `y`. -/
theorem rank_ties_stable (rows : List RankRow) (x y : RankRow)
    (hsub : [x, y].Sublist rows) (heq : x.avgVal = y.avgVal) :
    [x, y].Sublist (rank_df rows) := by
  have hyx : leRow y x = true := by
    simp [leRow, heq]
  have h1 : [y, x].Sublist rows.reverse := by
    have h0 : [x, y].reverse.Sublist rows.reverse := List.reverse_sublist.mpr hsub
    simpa using h0
  have h2 : [y, x].Sublist (rows.reverse.mergeSort leRow) :=
    List.pair_sublist_mergeSort leRow_trans leRow_total hyx h1
  have h3 : [y, x].reverse.Sublist (rows.reverse.mergeSort leRow).reverse :=
    List.reverse_sublist.mpr h2
  simpa [rank_df] using h3

theorem rank_ties_stable_witness :
    [(⟨"A", 5, 5, 5⟩ : RankRow), ⟨"B", 5, 5, 5⟩].Sublist
      (rank_df [⟨"A", 5, 5, 5⟩, ⟨"B", 5, 5, 5⟩]) :=
  rank_ties_stable [⟨"A", 5, 5, 5⟩, ⟨"B", 5, 5, 5⟩] ⟨"A", 5, 5, 5⟩ ⟨"B", 5, 5, 5⟩
    (List.Sublist.refl _) rfl

/-- C6: with an empty client id or client secret the query is refused
locally with the credential error message (lines 100-101) and the script
stops before any network call: the call trace is empty. -/
theorem creds_refused_before_network (cid csec text : String)
    (trendApi : List (String × List String) → Except ApiError (List TrendEntry))
    (newsApi : String → Except ApiError (List NewsItem))
    (h : cid = "" ∨ csec = "") :
    runQuery cid csec text trendApi newsApi = (.credsRefused, []) := by
  simp only [runQuery, if_pos h]

theorem creds_refused_before_network_witness :
    runQuery "" "" "아이폰, 갤럭시" (fun _ => .ok []) (fun _ => .ok []) =
      (.credsRefused, []) :=
  creds_refused_before_network "" "" "아이폰, 갤럭시" (fun _ => .ok [])
    (fun _ => .ok []) (Or.inl rfl)

theorem newsLoop_calls
    (api : String → Except ApiError (List NewsItem)) (kws : List String) :
    (newsLoop api kws).1 = kws := by
  induction kws with
  | nil => rfl
  | cons a as ih => simp [newsLoop, ih]

theorem newsLoop_sections
    (api : String → Except ApiError (List NewsItem)) (kws : List String) :
    (newsLoop api kws).2 = kws.map (newsSectionOf api) := by
  induction kws with
  | nil => rfl
  | cons a as ih => simp [newsLoop, ih]

/-- C7: the news loop issues exactly one fetch per ranked keyword, in
order; the keyword whose fetch fails gets a warning section with an empty
news list; every keyword whose fetch succeeds gets its items with no
warning; and a keyword's section depends only on that keyword's own fetch
result, so one failure cannot disturb the others. -/
theorem news_failure_isolated
    (api api2 : String → Except ApiError (List NewsItem))
    (kws : List String) (kw : String) (e : ApiError)
    (hmem : kw ∈ kws) (hfail : api kw = .error e) :
    (newsLoop api kws).1 = kws ∧
    (newsLoop api kws).2 = kws.map (newsSectionOf api) ∧
    newsSectionOf api kw = (kw, true, []) ∧
    (kw, true, ([] : List NewsItem)) ∈ (newsLoop api kws).2 ∧
    (∀ k ns, api k = .ok ns → newsSectionOf api k = (k, false, ns)) ∧
    (∀ k, api2 k = api k → newsSectionOf api2 k = newsSectionOf api k) := by
  refine ⟨newsLoop_calls api kws, newsLoop_sections api kws, ?_, ?_, ?_, ?_⟩
  · rw [newsSectionOf, hfail]
  · rw [newsLoop_sections]
    exact List.mem_map.mpr ⟨kw, hmem, by rw [newsSectionOf, hfail]⟩
  · intro k ns hk
    rw [newsSectionOf, hk]
  · intro k hk
    rw [newsSectionOf, hk, newsSectionOf]

theorem news_failure_isolated_witness :
    newsSectionOf (fun k => if k = "B" then .error .auth else .ok []) "B" =
      ("B", true, []) :=
  (news_failure_isolated (fun k => if k = "B" then .error .auth else .ok [])
    (fun k => if k = "B" then .error .auth else .ok [])
    ["A", "B"] "B" .auth (by decide) rfl).2.2.1

/-- C9: the entry with an empty data point list makes the row building raise
the uncaught generic `KeyError` (from `series["ratio"]` on a column-less
DataFrame) — the entry is neither skipped nor reported through a dedicated
empty-data error, and the whole query crashes. -/
theorem empty_data_crashes :
    buildRows [⟨"A", []⟩] = .error .keyError ∧
    runQuery "id" "sec" "A" (fun _ => .ok [⟨"A", []⟩]) (fun _ => .ok []) =
      (.crashed .keyError, [.trend [("A", ["A"])]]) := by
  exact ⟨rfl, by decide⟩

/-- C10: the keyword list is the comma-split of the text area content with
every token stripped and empty tokens dropped (so each used keyword is
nonempty), and when no keyword remains the query is refused with the
warning of lines 109-110 before any network call. -/
theorem parse_keywords_and_refusal (cid csec text : String)
    (trendApi : List (String × List String) → Except ApiError (List TrendEntry))
    (newsApi : String → Except ApiError (List NewsItem))
    (h1 : cid ≠ "") (h2 : csec ≠ "") :
    (∀ k ∈ parseKeywords text, k ≠ "") ∧
    parseKeywords " apple , banana ,, " = ["apple", "banana"] ∧
    (parseKeywords text = [] →
      runQuery cid csec text trendApi newsApi = (.noKeywords, [])) := by
  refine ⟨?_, by decide, ?_⟩
  · intro k hk
    exact of_decide_eq_true (List.mem_filter.mp hk).2
  · intro hemp
    simp only [runQuery, hemp]
    rw [if_neg (not_or.mpr ⟨h1, h2⟩)]
    simp

theorem parse_keywords_and_refusal_witness :
    runQuery "x" "y" " , " (fun _ => .ok []) (fun _ => .ok []) =
      (.noKeywords, []) :=
  (parse_keywords_and_refusal "x" "y" " , " (fun _ => .ok []) (fun _ => .ok [])
    (by decide) (by decide)).2.2 (by decide)

theorem removeOccF_of_not_occurs (pat : List Char) (fuel : Nat) (l : List Char)
    (h : occursIn pat l = false) : removeOccF pat fuel l = l := by
  induction fuel generalizing l with
  | zero => cases l <;> rfl
  | succ n ih =>
    cases l with
    | nil => rfl
    | cons c rest =>
      rw [occursIn] at h
      obtain ⟨h1, h2⟩ := Bool.or_eq_false_iff.mp h
      rw [removeOccF, if_neg (by simp [h1]), ih rest h2]

theorem sanitize_of_tagfree (s : String)
    (h1 : occursIn "<b>".data s.data = false)
    (h2 : occursIn "</b>".data s.data = false) :
    sanitize s = s := by
  have hin : removeAllStr "<b>" s = s := by
    show String.mk (removeOccF "<b>".data s.data.length s.data) = s
    rw [removeOccF_of_not_occurs _ _ _ h1]
  have hout : removeAllStr "</b>" s = s := by
    show String.mk (removeOccF "</b>".data s.data.length s.data) = s
    rw [removeOccF_of_not_occurs _ _ _ h2]
  rw [sanitize, hin, hout]

/-- C8 (original claim refuted): the cleanup is not "remove exactly the
emphasis tags of the input": on `"<<b>/b>"` the only tag present in the
input is the `<b>` at position 1, so exact removal leaves `"</b>"` (the
spec-side `sanitizeSpec` does), but the sequential replacement first deletes
that `<b>`, which splices the surrounding characters into a new `</b>` that
the second replacement also deletes — the program returns `""` and four
characters that were not part of any tag of the input are lost. -/
theorem sanitize_not_exact_cex :
    sanitize "<<b>/b>" = "" ∧
    sanitizeSpec "<<b>/b>" = "</b>" ∧
    sanitize "<<b>/b>" ≠ sanitizeSpec "<<b>/b>" := by
  exact ⟨by decide, by decide, by decide⟩

/-- C8 (amended): the cleanup deletes every `<b>`, then every `</b>` from
the result (so strings with no tag fragment at all pass through unchanged,
and the documented example holds), and it is applied to both the title and
the description of every news item before display, the link staying as-is.
On inputs where deleting `<b>` splices together a new `</b>`, more than the
tags of the input is removed. -/
theorem sanitize_amended :
    (∀ s : String, occursIn "<b>".data s.data = false →
      occursIn "</b>".data s.data = false → sanitize s = s) ∧
    sanitize "<b>Apple</b> unveils <b>iPhone</b>" = "Apple unveils iPhone" ∧
    (∀ item : NewsItem,
      renderItem item = (sanitize item.title, item.link, sanitize item.description)) :=
  ⟨sanitize_of_tagfree, by decide, fun _ => rfl⟩

theorem sanitize_amended_witness : sanitize "Apple – 애플" = "Apple – 애플" :=
  sanitize_amended.1 "Apple – 애플" (by decide) (by decide)
